import Mathlib

/-!
Shallow embedding of src/src/network/networkd-dhcp-server.c: the decision
logic that provisions a DHCPv4 server instance on a link (pool address
selection, lease times, the six advertised service-address lists with their
uplink / lease / resolv-conf fallbacks, router and timezone options, custom
and vendor options, and the static-lease table), together with the
configuration parsers for server lists and static leases.

IPv4 addresses are represented as their numeric big-endian value, a `Nat`
below 2^32 (e.g. 10.0.0.5 is 167772165).  C strings are represented as
`List Char` so that all parsing is structural recursion the kernel can
evaluate.  Machine helpers of the repository that are not part of the
provided source (in-addr-util, parse-util, sd-dhcp-lease, ordered hashmaps,
the server engine) are modelled from the spec at their interface, as noted
on each definition.
-/

/-- C strings are embedded as lists of characters. -/
abbrev Str := List Char

/-- Coerce a Lean string literal into the embedding's string type. -/
def str (s : String) : Str := s.toList

/-- Address family of a parsed address (only AF_INET / AF_INET6 matter here). -/
inductive Family where
  | inet
  | inet6
deriving DecidableEq, Repr

/-- An address together with its family (the C union in_addr_union plus family
tag).  For `inet` the `addr` field is the IPv4 value; for `inet6` the value is
unused by this module (every consumer discards non-IPv4 addresses). -/
structure InAddrUnion where
  family : Family
  addr : Nat
deriving DecidableEq, Repr

/-- A configured or pool address on a link (struct Address: family, the
address itself, and the prefix length used for the server pool). -/
structure Address where
  family : Family
  in_addr : Nat
  prefixlen : Nat
deriving DecidableEq, Repr

/-- The six lease-info service categories, in the order of the `configs`
array of dhcp4_server_configure (SD_DHCP_LEASE_*_SERVERS). -/
inductive LeaseInfo where
  | dns
  | ntp
  | sip
  | pop3
  | smtp
  | lpr
deriving DecidableEq, Repr

/-- Modelled from the spec: an active DHCP lease on the uplink exposes one
raw IPv4 address list per service category (sd_dhcp_lease_get_dns /
sd_dhcp_lease_get_servers of the external sd-dhcp-lease collaborator). -/
structure Lease where
  dns : List Nat := []
  ntp : List Nat := []
  sip : List Nat := []
  pop3 : List Nat := []
  smtp : List Nat := []
  lpr : List Nat := []
deriving DecidableEq, Repr

/-- Modelled from the spec: sd_dhcp_lease_get_servers returns the lease's raw
address list for the requested category. -/
def sd_dhcp_lease_get_servers (lease : Lease) : LeaseInfo → List Nat
  | LeaseInfo.dns => lease.dns
  | LeaseInfo.ntp => lease.ntp
  | LeaseInfo.sip => lease.sip
  | LeaseInfo.pop3 => lease.pop3
  | LeaseInfo.smtp => lease.smtp
  | LeaseInfo.lpr => lease.lpr

/-- Modelled from the spec (in-addr-util, not in src/): an IPv4 address is
null when it is all zeros. -/
def in4_addr_is_null (a : Nat) : Bool := a == 0

/-- Modelled from the spec (in-addr-util, not in src/): an IPv4 address is a
loopback address when its first octet is 127 (127.0.0.0/8). -/
def in4_addr_is_localhost (a : Nat) : Bool := a / 16777216 == 127

/-- Modelled from the spec (in-addr-util, not in src/): non-local means
neither the all-zeros address nor a loopback address. -/
def in4_addr_is_non_local (a : Nat) : Bool :=
  !(in4_addr_is_null a) && !(in4_addr_is_localhost a)

/-- Modelled from the spec (in-addr-util, not in src/): family-generic null
test; for both families it is the all-zeros check on our representation. -/
def in_addr_is_null (_f : Family) (a : Nat) : Bool := a == 0

/-- The candidate-keeping cascade shared by the uplink-DNS, uplink server
string and resolv-conf sources: skip a candidate unless it is IPv4, and never
propagate the null or a loopback address (the sequence of `continue` checks
in link_push_uplink_dns_to_dhcp_server and its siblings); returns the bare
IPv4 value of a kept candidate. -/
def keep_ipv4_non_local (u : InAddrUnion) : Option Nat :=
  if u.family ≠ Family.inet then none
  else if in4_addr_is_null u.addr then none
  else if in4_addr_is_localhost u.addr then none
  else some u.addr

/-- Modelled from the spec (AddressFilter, §4.1): accept exactly the IPv4
addresses that are neither all-zeros nor loopback. -/
def address_filter_accept (u : InAddrUnion) : Bool :=
  (u.family == Family.inet) && !(u.addr == 0) && !(u.addr / 16777216 == 127)

/-- Split a character list at every occurrence of the separator character
(single-character analogue of String.splitOn). -/
def split_on_char (sep : Char) : Str → List Str
  | [] => [[]]
  | c :: rest =>
    let r := split_on_char sep rest
    if c == sep then [] :: r
    else
      match r with
      | [] => [[c]]
      | w :: ws => (c :: w) :: ws

/-- Split a character list at every character satisfying the predicate. -/
def split_by (p : Char → Bool) : Str → List Str
  | [] => [[]]
  | c :: rest =>
    let r := split_by p rest
    if p c then [] :: r
    else
      match r with
      | [] => [[c]]
      | w :: ws => (c :: w) :: ws

/-- The whitespace characters recognized by the word extractor. -/
def is_ws (c : Char) : Bool := c == ' ' || c == '\t' || c == '\n' || c == '\r'

/-- Modelled from the spec (extract_first_word iterated over a value, not in
src/): split a configuration value into its whitespace-separated words. -/
def extract_words (s : Str) : List Str :=
  (split_by is_ws s).filter (fun w => w ≠ [])

/-- Modelled from the spec: one decimal octet of a dotted-quad IPv4 literal
(1 to 3 digits, no leading zero, value at most 255). -/
def parse_dec_octet (s : Str) : Option Nat :=
  if s.length = 0 then none
  else if s.length > 3 then none
  else if !(s.all Char.isDigit) then none
  else if s.length > 1 && s.head? == some '0' then none
  else
    let v := s.foldl (fun a c => a * 10 + (c.toNat - 48)) 0
    if v ≤ 255 then some v else none

/-- Modelled from the spec (in_addr_from_string with AF_INET, not in src/):
parse a dotted-quad IPv4 literal into its numeric value; anything else
(including IPv6 literals) fails. -/
def in_addr_from_string (s : Str) : Option Nat :=
  match split_on_char '.' s with
  | [a, b, c, d] =>
    match parse_dec_octet a, parse_dec_octet b, parse_dec_octet c, parse_dec_octet d with
    | some x, some y, some z, some w => some (((x * 256 + y) * 256 + z) * 256 + w)
    | _, _, _, _ => none
  | _ => none

/-- Modelled from the spec: one hexadecimal digit. -/
def parse_hex_digit (c : Char) : Option Nat :=
  if c.isDigit then some (c.toNat - 48)
  else if 'a' ≤ c && c ≤ 'f' then some (c.toNat - 87)
  else if 'A' ≤ c && c ≤ 'F' then some (c.toNat - 55)
  else none

/-- Modelled from the spec: one hardware-address byte, 1 or 2 hex digits. -/
def parse_hex_byte (s : Str) : Option Nat :=
  match s with
  | [c] => parse_hex_digit c
  | [c, d] =>
    match parse_hex_digit c, parse_hex_digit d with
    | some x, some y => some (x * 16 + y)
    | _, _ => none
  | _ => none

/-- Modelled from the spec (ether_addr_from_string, not in src/): parse a
colon-separated 6-byte hardware address into its byte list. -/
def ether_addr_from_string (s : Str) : Option (List Nat) :=
  match split_on_char ':' s with
  | [a, b, c, d, e, f] =>
    match parse_hex_byte a, parse_hex_byte b, parse_hex_byte c,
          parse_hex_byte d, parse_hex_byte e, parse_hex_byte f with
    | some x1, some x2, some x3, some x4, some x5, some x6 =>
      some [x1, x2, x3, x4, x5, x6]
    | _, _, _, _, _, _ => none
  | _ => none

/-- The part of a string before the first occurrence of the separator (the
whole string when the separator does not occur). -/
def before_char (sep : Char) (s : Str) : Str :=
  match split_on_char sep s with
  | b :: _ => b
  | [] => s

/-- Modelled from the spec (in_addr_ifindex_name_from_string_auto, not in
src/): parse an address token with an optional interface scope (after a
percent sign) and an optional server-name label (after a hash sign), both of
which are discarded; a dotted quad yields an IPv4 result, a token containing
a colon is an IPv6 address (whose value this module never uses), anything
else fails to parse. -/
def in_addr_ifindex_name_from_string_auto (w : Str) : Option InAddrUnion :=
  let bare := before_char '%' (before_char '#' w)
  match in_addr_from_string bare with
  | some a => some { family := Family.inet, addr := a }
  | none =>
    if bare.contains ':' then some { family := Family.inet6, addr := 0 }
    else none

/-- Modelled from the spec (strstrip, not in src/): drop leading and trailing
whitespace. -/
def strstrip (s : Str) : Str :=
  ((s.dropWhile is_ws).reverse.dropWhile is_ws).reverse

/-- Modelled from the spec (first_word, not in src/): if the line starts with
the given directive word followed by whitespace or end of line, return the
remainder, else nothing. -/
def first_word (l w : Str) : Option Str :=
  if l = w then some []
  else if (w ++ [' ']).isPrefixOf l then some (l.drop (w.length + 1))
  else if (w ++ ['\t']).isPrefixOf l then some (l.drop (w.length + 1))
  else none

example : in_addr_from_string (str "10.0.0.5") = some 167772165 := by decide
example : in_addr_from_string (str "1.2.3.4") = some 16909060 := by decide
example : in_addr_from_string (str "0.0.0.0") = some 0 := by decide
example : in_addr_from_string (str "8.8.8.8") = some 134744072 := by decide
example : in_addr_from_string (str "fe80::1") = none := by decide
example : in_addr_from_string (str "127.0.0.1") = some 2130706433 := by decide
example : ether_addr_from_string (str "aa:bb:cc:dd:ee:ff") =
    some [170, 187, 204, 221, 238, 255] := by decide
example : extract_words (str " 9.9.9.9  1.1.1.1 ") = [str "9.9.9.9", str "1.1.1.1"] := by decide
example : first_word (str "nameserver 1.1.1.1") (str "nameserver") =
    some (str "1.1.1.1") := by decide
example : in_addr_ifindex_name_from_string_auto (str "1.1.1.1#dns.example") =
    some { family := Family.inet, addr := 16843009 } := by decide

/-- The per-link configuration fields of struct Network that this module
reads: the link's static addresses, the uplink-side DNS/NTP/SIP/POP3/SMTP/LPR
sources with their "use from lease" flags, and the DHCP-server side
(pool geometry, lease times, per-category emit flags and explicit lists,
router/timezone emission, option sets and the static-lease table). -/
structure Network where
  static_addresses : List Address := []
  dns : List InAddrUnion := []
  dhcp_use_dns : Bool := false
  dhcp_use_ntp : Bool := false
  dhcp_use_sip : Bool := false
  ntp : List Str := []
  sip : List Str := []
  pop3 : List Str := []
  smtp : List Str := []
  lpr : List Str := []
  dhcp_server_pool_offset : Nat := 0
  dhcp_server_pool_size : Nat := 0
  dhcp_server_max_lease_time_usec : Nat := 0
  dhcp_server_default_lease_time_usec : Nat := 0
  dhcp_server_emit_dns : Bool := false
  dhcp_server_emit_ntp : Bool := false
  dhcp_server_emit_sip : Bool := false
  dhcp_server_dns : List Nat := []
  dhcp_server_ntp : List Nat := []
  dhcp_server_sip : List Nat := []
  dhcp_server_pop3 : List Nat := []
  dhcp_server_smtp : List Nat := []
  dhcp_server_lpr : List Nat := []
  dhcp_server_emit_router : Bool := false
  dhcp_server_emit_timezone : Bool := false
  dhcp_server_timezone : Option Str := none
  dhcp_server_send_options : List Nat := []
  dhcp_server_send_vendor_options : List Nat := []
  dhcp_static_leases : List (List Nat × Nat) := []
deriving DecidableEq, Repr

/-- The slice of struct Link that the uplink-push helpers read: the uplink's
own configuration (possibly absent) and its currently active DHCP lease
(possibly absent). -/
structure Link where
  network : Option Network := none
  dhcp_lease : Option Lease := none
deriving DecidableEq, Repr

/-- First LIST_FOREACH loop of link_find_dhcp_server_address: the first
statically configured address that is IPv4 and not null. -/
def find_static_ipv4_address : List Address → Option Address
  | [] => none
  | a :: rest =>
    if a.family ≠ Family.inet then find_static_ipv4_address rest
    else if in_addr_is_null a.family a.in_addr then find_static_ipv4_address rest
    else some a

/-- Second LIST_FOREACH loop of link_find_dhcp_server_address: the first
pool address that is IPv4 (no null check in the source). -/
def find_pool_ipv4_address : List Address → Option Address
  | [] => none
  | a :: rest =>
    if a.family ≠ Family.inet then find_pool_ipv4_address rest
    else some a

/-- link_find_dhcp_server_address: the first statically configured non-null
IPv4 address if there is any, else the first IPv4 address from the pool. -/
def link_find_dhcp_server_address (static_addresses pool_addresses : List Address) :
    Option Address :=
  match find_static_ipv4_address static_addresses with
  | some a => some a
  | none => find_pool_ipv4_address pool_addresses

/-- Modelled from the spec (§4.6 step 1, for comparison with the code):
select the first statically configured non-null IPv4 address on the link,
else the first IPv4 address obtained from the link's address pool. -/
def spec_select_pool_address (static_addresses pool_addresses : List Address) :
    Option Address :=
  match static_addresses.find? (fun a => a.family == Family.inet && !(a.in_addr == 0)) with
  | some a => some a
  | none => pool_addresses.find? (fun a => a.family == Family.inet)

/-- Wrap an accumulated address list the way every push helper does on its
way out: `n_addresses <= 0` means no engine call is made (`none`), otherwise
the whole accumulated list is handed to the engine. -/
def mk_push_result (addresses : List Nat) : Option (List Nat) :=
  if addresses.length = 0 then none else some addresses

/-- link_push_uplink_dns_to_dhcp_server: collect the uplink's pre-parsed DNS
addresses (IPv4, non-null, non-loopback only), append the uplink lease's DNS
addresses (non-local only) when the uplink's dhcp_use_dns flag is set and a
lease is present, and push the result iff it is non-empty.  The returned
value is the list handed to sd_dhcp_server_set_dns, or `none` when no engine
call is made. -/
def link_push_uplink_dns_to_dhcp_server (net : Network) (dhcp_lease : Option Lease) :
    Option (List Nat) :=
  let addresses := net.dns.filterMap keep_ipv4_non_local
  let addresses := addresses ++
    (if net.dhcp_use_dns then
       match dhcp_lease with
       | some lease => lease.dns.filter in4_addr_is_non_local
       | none => []
     else [])
  mk_push_result addresses

/-- The `servers` strv chosen by the switch in link_push_uplink_to_dhcp_server
(the uplink's statically configured server strings for the category; DNS is
special-cased before the switch and never reaches it). -/
def uplink_servers_for (net : Network) : LeaseInfo → List Str
  | LeaseInfo.dns => []
  | LeaseInfo.ntp => net.ntp
  | LeaseInfo.sip => net.sip
  | LeaseInfo.pop3 => net.pop3
  | LeaseInfo.smtp => net.smtp
  | LeaseInfo.lpr => net.lpr

/-- The `lease_condition` chosen by the switch in
link_push_uplink_to_dhcp_server: the uplink's "use NTP"/"use SIP" flag for
NTP and SIP, unconditionally true for POP3, SMTP and LPR (DNS never reaches
the switch). -/
def uplink_lease_condition (net : Network) : LeaseInfo → Bool
  | LeaseInfo.dns => true
  | LeaseInfo.ntp => net.dhcp_use_ntp
  | LeaseInfo.sip => net.dhcp_use_sip
  | LeaseInfo.pop3 => true
  | LeaseInfo.smtp => true
  | LeaseInfo.lpr => true

/-- The STRV_FOREACH loop of link_push_uplink_to_dhcp_server: keep the server
strings that parse as IPv4 and are neither null nor loopback. -/
def parse_uplink_server_strings (servers : List Str) : List Nat :=
  servers.filterMap (fun a =>
    match in_addr_from_string a with
    | none => none
    | some ia => keep_ipv4_non_local { family := Family.inet, addr := ia })

/-- link_push_uplink_to_dhcp_server: nothing without an uplink configuration;
DNS delegates to the pre-parsed DNS helper; otherwise collect the uplink's
configured server strings for the category, append the lease's list for the
category (non-local only) when the category's lease condition holds and a
lease is present, and push the result iff it is non-empty.  The returned
value is the list handed to sd_dhcp_server_set_servers, or `none` when no
engine call is made. -/
def link_push_uplink_to_dhcp_server (link : Link) (what : LeaseInfo) :
    Option (List Nat) :=
  match link.network with
  | none => none
  | some net =>
    if what = LeaseInfo.dns then
      link_push_uplink_dns_to_dhcp_server net link.dhcp_lease
    else
      let addresses := parse_uplink_server_strings (uplink_servers_for net what)
      let addresses := addresses ++
        (if uplink_lease_condition net what then
           match link.dhcp_lease with
           | some lease => (sd_dhcp_lease_get_servers lease what).filter in4_addr_is_non_local
           | none => []
         else [])
      mk_push_result addresses

/-- dhcp4_server_parse_dns_server_string_and_warn: tokenize the remainder of
a nameserver line, parse each word as an address with optional scope/label,
skip unparseable words, keep only IPv4 non-null non-loopback addresses, and
append them to the accumulator. -/
def dhcp4_server_parse_dns_server_string_and_warn (s : Str) (acc : List Nat) : List Nat :=
  acc ++ (extract_words s).filterMap (fun w =>
    match in_addr_ifindex_name_from_string_auto w with
    | none => none
    | some u => keep_ipv4_non_local u)

/-- The line loop of dhcp4_server_set_dns_from_resolve_conf: strip each line,
skip comment lines (leading hash sign or semicolon) and empty lines, and feed
the remainder of every `nameserver` directive to the DNS string parser. -/
def resolv_conf_collect : List Str → List Nat → List Nat
  | [], acc => acc
  | line :: rest, acc =>
    let l := strstrip line
    if l = [] then resolv_conf_collect rest acc
    else if l.head? == some '#' || l.head? == some ';' then resolv_conf_collect rest acc
    else
      match first_word l (str "nameserver") with
      | none => resolv_conf_collect rest acc
      | some a => resolv_conf_collect rest (dhcp4_server_parse_dns_server_string_and_warn a acc)

/-- The observable state of the well-known resolv-conf fallback file as the
reading code encounters it: the open fails with some errno, or the file
yields a list of lines followed either by a clean end of file or by a read
failure with some (already negative) error code. -/
inductive ResolvConfFile where
  | openFail (errno : Int)
  | content (lines : List Str) (read_error : Option Int)
deriving DecidableEq, Repr

/-- The ENOENT errno value. -/
def ENOENT : Int := 2

/-- The EEXIST errno value. -/
def EEXIST : Int := 17

deriving instance DecidableEq for Except

/-- dhcp4_server_set_dns_from_resolve_conf: ENOENT on open is success with
nothing to push; any other open failure returns the negated errno; a read
failure returns its error code; otherwise collect the nameserver addresses
and push them iff any were found.  `Except.ok` carries the list handed to
sd_dhcp_server_set_dns, or `none` when no engine call is made. -/
def dhcp4_server_set_dns_from_resolve_conf (file : ResolvConfFile) :
    Except Int (Option (List Nat)) :=
  match file with
  | ResolvConfFile.openFail errno =>
    if errno = ENOENT then Except.ok none else Except.error (-errno)
  | ResolvConfFile.content lines read_error =>
    match read_error with
    | some r => Except.error r
    | none => Except.ok (mk_push_result (resolv_conf_collect lines []))

example : link_push_uplink_to_dhcp_server
    { network := some { dhcp_use_dns := true }, dhcp_lease := some { dns := [134744072, 0] } }
    LeaseInfo.dns = some [134744072] := by decide
example : link_push_uplink_to_dhcp_server
    { network := some { ntp := [str "1.2.3.4"], dhcp_use_ntp := false },
      dhcp_lease := some { ntp := [134744072] } }
    LeaseInfo.ntp = some [16909060] := by decide
example : dhcp4_server_set_dns_from_resolve_conf
    (ResolvConfFile.content [str "# comment", str "nameserver 1.1.1.1"] none) =
    Except.ok (some [16843009]) := by decide
example : dhcp4_server_set_dns_from_resolve_conf (ResolvConfFile.openFail 2) =
    Except.ok none := by decide

/-- One call into the external DHCP server engine (the consumed sd_dhcp_server
operations of §6; sd_dhcp_server_set_dns is the category-list setter for the
DNS category). -/
inductive EngineCall where
  | configurePool (addr prefixlen offset size : Nat)
  | setMaxLeaseTime (secs : Nat)
  | setDefaultLeaseTime (secs : Nat)
  | setServers (what : LeaseInfo) (addresses : List Nat)
  | setEmitRouter (emit : Bool)
  | setTimezone (tz : Str)
  | addOption (p : Nat)
  | addVendorOption (p : Nat)
  | addStaticLease (client_id : List Nat) (addr : Nat)
  | start
deriving DecidableEq, Repr

/-- Modelled from the spec (§6): the external engine answers every consumed
operation with an integer return code (negative errno on failure) and reports
whether it is already running. -/
structure Engine where
  ret : EngineCall → Int
  running : Bool

/-- The fatal failure modes of dhcp4_server_configure, one per error-return
site (each carries the engine's return code where one exists). -/
inductive ConfErr where
  | no_address
  | pool (r : Int)
  | max_lease_time (r : Int)
  | default_lease_time (r : Int)
  | emit_router (r : Int)
  | get_timezone_failed
  | set_timezone (r : Int)
  | add_option (r : Int)
  | add_vendor_option (r : Int)
  | add_static_lease (r : Int)
  | start_failed (r : Int)
deriving DecidableEq, Repr

/-- The result of one provisioning stage: the engine-call trace so far plus
either success or the fatal error that aborts the pass. -/
abbrev ConfRes := List EngineCall × Except ConfErr Unit

/-- Sequence two provisioning stages: a fatal error in the first skips the
second (the early `return` of the C function), keeping the calls already
made. -/
def confSeq (a : ConfRes) (f : List EngineCall → ConfRes) : ConfRes :=
  match a with
  | (tr, Except.ok _) => f tr
  | (tr, Except.error err) => (tr, Except.error err)

/-- USEC_PER_SEC. -/
def USEC_PER_SEC : Nat := 1000000

/-- Modelled from the spec (the DIV_ROUND_UP macro, not in src/): divide,
rounding up. -/
def DIV_ROUND_UP (x y : Nat) : Nat := (x + y - 1) / y

/-- The per-category entry of the `configs` array in dhcp4_server_configure:
the condition gating the category (the emit flag for DNS/NTP/SIP, always true
for POP3/SMTP/LPR) and the category's explicit per-link server list. -/
def Network.serviceConfig (net : Network) : LeaseInfo → Bool × List Nat
  | LeaseInfo.dns => (net.dhcp_server_emit_dns, net.dhcp_server_dns)
  | LeaseInfo.ntp => (net.dhcp_server_emit_ntp, net.dhcp_server_ntp)
  | LeaseInfo.sip => (net.dhcp_server_emit_sip, net.dhcp_server_sip)
  | LeaseInfo.pop3 => (true, net.dhcp_server_pop3)
  | LeaseInfo.smtp => (true, net.dhcp_server_smtp)
  | LeaseInfo.lpr => (true, net.dhcp_server_lpr)

/-- The inputs of one dhcp4_server_configure pass: the link's configuration
(asserted non-null in the source), its pool addresses, the uplink that
manager_find_uplink would return (external policy, memoized once per pass),
the observable state of the resolv-conf fallback file, and the host timezone
that get_timezone would return (`none` when it fails). -/
structure ConfigureInput where
  network : Network
  pool_addresses : List Address := []
  uplink : Option Link := none
  resolv_conf : ResolvConfFile := ResolvConfFile.openFail 2
  host_timezone : Option Str := none

/-- The pool stage of dhcp4_server_configure: configure the engine's address
pool from the selected address's subnet plus the configured offset and size;
a negative return is fatal. -/
def configurePoolStage (net : Network) (e : Engine) (address : Address)
    (tr : List EngineCall) : ConfRes :=
  let c := EngineCall.configurePool address.in_addr address.prefixlen
    net.dhcp_server_pool_offset net.dhcp_server_pool_size
  (tr ++ [c], if e.ret c < 0 then Except.error (ConfErr.pool (e.ret c)) else Except.ok ())

/-- The maximum-lease-time stage: only when the configured microsecond value
is positive, push it converted to seconds rounded up; a negative return is
fatal. -/
def configureMaxLeaseTimeStage (net : Network) (e : Engine)
    (tr : List EngineCall) : ConfRes :=
  if net.dhcp_server_max_lease_time_usec > 0 then
    let c := EngineCall.setMaxLeaseTime
      (DIV_ROUND_UP net.dhcp_server_max_lease_time_usec USEC_PER_SEC)
    (tr ++ [c],
     if e.ret c < 0 then Except.error (ConfErr.max_lease_time (e.ret c)) else Except.ok ())
  else (tr, Except.ok ())

/-- The default-lease-time stage: same shape as the maximum-lease-time
stage. -/
def configureDefaultLeaseTimeStage (net : Network) (e : Engine)
    (tr : List EngineCall) : ConfRes :=
  if net.dhcp_server_default_lease_time_usec > 0 then
    let c := EngineCall.setDefaultLeaseTime
      (DIV_ROUND_UP net.dhcp_server_default_lease_time_usec USEC_PER_SEC)
    (tr ++ [c],
     if e.ret c < 0 then Except.error (ConfErr.default_lease_time (e.ret c)) else Except.ok ())
  else (tr, Except.ok ())

/-- One iteration of the category loop of dhcp4_server_configure: skip the
category when its condition is false; push the explicit list verbatim when it
is non-empty; otherwise fall back to the uplink (nothing without one), to the
uplink's configuration when it has one, or to the resolv-conf file for DNS
when it has none.  Every failure on this path is logged and ignored, so the
stage always succeeds. -/
def configureServiceList (inp : ConfigureInput) (n : LeaseInfo)
    (tr : List EngineCall) : ConfRes :=
  let cfg := inp.network.serviceConfig n
  if cfg.1 then
    if cfg.2.length > 0 then
      (tr ++ [EngineCall.setServers n cfg.2], Except.ok ())
    else
      match inp.uplink with
      | none => (tr, Except.ok ())
      | some uplink =>
        match uplink.network with
        | some _ =>
          match link_push_uplink_to_dhcp_server uplink n with
          | some addresses => (tr ++ [EngineCall.setServers n addresses], Except.ok ())
          | none => (tr, Except.ok ())
        | none =>
          if n = LeaseInfo.dns then
            match dhcp4_server_set_dns_from_resolve_conf inp.resolv_conf with
            | Except.ok (some addresses) =>
              (tr ++ [EngineCall.setServers LeaseInfo.dns addresses], Except.ok ())
            | Except.ok none => (tr, Except.ok ())
            | Except.error _ => (tr, Except.ok ())
          else (tr, Except.ok ())
  else (tr, Except.ok ())

/-- The categories in the iteration order of the `configs` array. -/
def all_lease_infos : List LeaseInfo :=
  [LeaseInfo.dns, LeaseInfo.ntp, LeaseInfo.sip, LeaseInfo.pop3, LeaseInfo.smtp, LeaseInfo.lpr]

/-- The category loop of dhcp4_server_configure over a list of categories. -/
def configureServiceListsFrom (inp : ConfigureInput) :
    List LeaseInfo → List EngineCall → ConfRes
  | [], tr => (tr, Except.ok ())
  | n :: rest, tr =>
    confSeq (configureServiceList inp n tr) (configureServiceListsFrom inp rest)

/-- The router stage: set the router-emission flag; a negative return is
fatal. -/
def configureRouterStage (net : Network) (e : Engine)
    (tr : List EngineCall) : ConfRes :=
  let c := EngineCall.setEmitRouter net.dhcp_server_emit_router
  (tr ++ [c],
   if e.ret c < 0 then Except.error (ConfErr.emit_router (e.ret c)) else Except.ok ())

/-- The timezone stage: only when timezone emission is enabled, use the
configured timezone string, else the host's timezone (whose absence is
fatal); a negative return from the push is fatal. -/
def configureTimezoneStage (inp : ConfigureInput) (e : Engine)
    (tr : List EngineCall) : ConfRes :=
  if inp.network.dhcp_server_emit_timezone then
    match inp.network.dhcp_server_timezone with
    | some tz =>
      (tr ++ [EngineCall.setTimezone tz],
       if e.ret (EngineCall.setTimezone tz) < 0 then
         Except.error (ConfErr.set_timezone (e.ret (EngineCall.setTimezone tz)))
       else Except.ok ())
    | none =>
      match inp.host_timezone with
      | none => (tr, Except.error ConfErr.get_timezone_failed)
      | some tz =>
        (tr ++ [EngineCall.setTimezone tz],
         if e.ret (EngineCall.setTimezone tz) < 0 then
           Except.error (ConfErr.set_timezone (e.ret (EngineCall.setTimezone tz)))
         else Except.ok ())
  else (tr, Except.ok ())

/-- The custom-option loop: add each option; a duplicate (-EEXIST) is skipped
and iteration continues, any other negative return is fatal. -/
def pushDhcpOptions (e : Engine) : List Nat → List EngineCall → ConfRes
  | [], tr => (tr, Except.ok ())
  | p :: rest, tr =>
    let r := e.ret (EngineCall.addOption p)
    if r = -EEXIST then pushDhcpOptions e rest (tr ++ [EngineCall.addOption p])
    else if r < 0 then (tr ++ [EngineCall.addOption p], Except.error (ConfErr.add_option r))
    else pushDhcpOptions e rest (tr ++ [EngineCall.addOption p])

/-- The vendor-option loop: same shape as the custom-option loop. -/
def pushDhcpVendorOptions (e : Engine) : List Nat → List EngineCall → ConfRes
  | [], tr => (tr, Except.ok ())
  | p :: rest, tr =>
    let r := e.ret (EngineCall.addVendorOption p)
    if r = -EEXIST then pushDhcpVendorOptions e rest (tr ++ [EngineCall.addVendorOption p])
    else if r < 0 then
      (tr ++ [EngineCall.addVendorOption p], Except.error (ConfErr.add_vendor_option r))
    else pushDhcpVendorOptions e rest (tr ++ [EngineCall.addVendorOption p])

/-- The static-lease loop: add each table entry; a duplicate (-EEXIST) is
skipped and iteration continues, any other negative return is fatal. -/
def pushDhcpStaticLeases (e : Engine) : List (List Nat × Nat) → List EngineCall → ConfRes
  | [], tr => (tr, Except.ok ())
  | s :: rest, tr =>
    let r := e.ret (EngineCall.addStaticLease s.1 s.2)
    if r = -EEXIST then pushDhcpStaticLeases e rest (tr ++ [EngineCall.addStaticLease s.1 s.2])
    else if r < 0 then
      (tr ++ [EngineCall.addStaticLease s.1 s.2], Except.error (ConfErr.add_static_lease r))
    else pushDhcpStaticLeases e rest (tr ++ [EngineCall.addStaticLease s.1 s.2])

/-- The start stage: start the engine unless it is already running; a
negative return is fatal. -/
def startStage (e : Engine) (tr : List EngineCall) : ConfRes :=
  if e.running then (tr, Except.ok ())
  else
    (tr ++ [EngineCall.start],
     if e.ret EngineCall.start < 0 then
       Except.error (ConfErr.start_failed (e.ret EngineCall.start))
     else Except.ok ())

/-- dhcp4_server_configure: select the server's own pool address (absence is
fatal before any engine call), then run the pool, lease-time, service-list,
router, timezone, option, vendor-option, static-lease and start stages in
order, stopping at the first fatal error.  Returns the full engine-call trace
together with the overall outcome. -/
def dhcp4_server_configure (inp : ConfigureInput) (e : Engine) : ConfRes :=
  match link_find_dhcp_server_address inp.network.static_addresses inp.pool_addresses with
  | none => ([], Except.error ConfErr.no_address)
  | some address =>
    confSeq (configurePoolStage inp.network e address []) (fun tr =>
    confSeq (configureMaxLeaseTimeStage inp.network e tr) (fun tr =>
    confSeq (configureDefaultLeaseTimeStage inp.network e tr) (fun tr =>
    confSeq (configureServiceListsFrom inp all_lease_infos tr) (fun tr =>
    confSeq (configureRouterStage inp.network e tr) (fun tr =>
    confSeq (configureTimezoneStage inp e tr) (fun tr =>
    confSeq (pushDhcpOptions e inp.network.dhcp_server_send_options tr) (fun tr =>
    confSeq (pushDhcpVendorOptions e inp.network.dhcp_server_send_vendor_options tr) (fun tr =>
    confSeq (pushDhcpStaticLeases e inp.network.dhcp_static_leases tr) (fun tr =>
    startStage e tr)))))))))

/-- The word loop of config_parse_dhcp_lease_server_list: for each extracted
word, skip it when it does not parse as an IPv4 address (logged and ignored),
else append the parsed address to the (reallocated) array. -/
def config_parse_dhcp_lease_server_list_words : List Str → List Nat → List Nat
  | [], addresses => addresses
  | w :: ws, addresses =>
    match in_addr_from_string w with
    | none => config_parse_dhcp_lease_server_list_words ws addresses
    | some a => config_parse_dhcp_lease_server_list_words ws (addresses ++ [a])

/-- config_parse_dhcp_lease_server_list: extract the whitespace-separated
words of the value and run the word loop over the category's existing address
list (the array is only ever appended to; an exhausted value just returns). -/
def config_parse_dhcp_lease_server_list (rvalue : Str) (addresses : List Nat) : List Nat :=
  config_parse_dhcp_lease_server_list_words (extract_words rvalue) addresses

/-- The static-lease table: client identifier (byte list) to reserved IPv4
address, keys unique, insertion order preserved. -/
abbrev StaticLeaseTable := List (List Nat × Nat)

/-- Modelled from the spec (ordered_hashmap_replace with the content-comparing
dhcp_static_leases_hash_ops, not in src/): replace the entry with this key in
place if one exists, else append a new entry. -/
def ordered_hashmap_replace (m : StaticLeaseTable) (key : List Nat) (addr : Nat) :
    StaticLeaseTable :=
  if m.any (fun entry => entry.1 = key) then
    m.map (fun entry => if entry.1 = key then (key, addr) else entry)
  else m ++ [(key, addr)]

/-- Modelled from the spec (ordered_hashmap_remove, not in src/): remove the
entry with this key, returning the removed value (if any) and the remaining
table. -/
def ordered_hashmap_remove (m : StaticLeaseTable) (key : List Nat) :
    Option Nat × StaticLeaseTable :=
  match m.find? (fun entry => entry.1 = key) with
  | some entry => (some entry.2, m.filter (fun e => !(e.1 = key : Bool)))
  | none => (none, m)

/-- config_parse_dhcp_static_leases: an empty value frees (clears) the whole
table; otherwise take the first space-separated word as a hardware address
and the second as an IPv4 address (any extraction or parse failure leaves the
table unchanged), build the client identifier as the type-tag byte 1 followed
by the six hardware-address bytes, replace any existing entry for that
identifier — and then immediately remove the entry again (the
replace-then-remove sequence of the source, lines 681-694). -/
def config_parse_dhcp_static_leases (rvalue : Str) (static_leases : StaticLeaseTable) :
    StaticLeaseTable :=
  if rvalue = [] then []
  else
    match extract_words rvalue with
    | [] => static_leases
    | word :: rest =>
      match ether_addr_from_string word with
      | none => static_leases
      | some hw =>
        match rest with
        | [] => static_leases
        | word2 :: _ =>
          match in_addr_from_string word2 with
          | none => static_leases
          | some addr =>
            let c := 1 :: hw
            let m1 := ordered_hashmap_replace static_leases c addr
            (ordered_hashmap_remove m1 c).2

example : config_parse_dhcp_lease_server_list (str "9.9.9.9 bad 1.1.1.1") [7] =
    [7, 151587081, 16843009] := by decide
example : config_parse_dhcp_lease_server_list (str "") [7] = [7] := by decide
example : config_parse_dhcp_static_leases (str "aa:bb:cc:dd:ee:ff 10.0.0.5") [] = [] := by decide
example : ordered_hashmap_replace [([1, 2], 5)] [1, 2] 9 = [([1, 2], 9)] := by decide
example : dhcp4_server_configure
    { network := { dhcp_server_dns := [16909060] },
      pool_addresses := [{ family := Family.inet, in_addr := 167772161, prefixlen := 24 }] }
    { ret := fun _ => 0, running := true } =
    ([EngineCall.configurePool 167772161 24 0 0,
      EngineCall.setEmitRouter false], Except.ok ()) := by decide

/-- Whether an engine call sets the advertised server list of the given
category. -/
def is_setServers_for (n : LeaseInfo) : EngineCall → Bool
  | EngineCall.setServers m _ => m == n
  | _ => false

theorem find_static_ipv4_address_eq_find (l : List Address) :
    find_static_ipv4_address l =
      l.find? (fun a => a.family == Family.inet && !(a.in_addr == 0)) := by
  induction l with
  | nil => rfl
  | cons a rest ih =>
    by_cases h1 : a.family = Family.inet
    · by_cases h2 : a.in_addr = 0
      · rw [find_static_ipv4_address, if_neg (by simp [h1]),
          if_pos (by simp [in_addr_is_null, h2]),
          List.find?_cons_of_neg _ (by simp [h2]), ih]
      · rw [find_static_ipv4_address, if_neg (by simp [h1]),
          if_neg (by simp [in_addr_is_null, h2]),
          List.find?_cons_of_pos _ (by simp [h1, h2])]
    · rw [find_static_ipv4_address, if_pos (by simp [h1]),
        List.find?_cons_of_neg _ (by simp [h1]), ih]

theorem find_pool_ipv4_address_eq_find (l : List Address) :
    find_pool_ipv4_address l = l.find? (fun a => a.family == Family.inet) := by
  induction l with
  | nil => rfl
  | cons a rest ih =>
    by_cases h1 : a.family = Family.inet
    · rw [find_pool_ipv4_address, if_neg (by simp [h1]),
        List.find?_cons_of_pos _ (by simp [h1])]
    · rw [find_pool_ipv4_address, if_pos (by simp [h1]),
        List.find?_cons_of_neg _ (by simp [h1]), ih]

/-- C5: pool-address selection returns the first statically configured
non-null IPv4 address on the link, else the first IPv4 address from the
link's address pool; if neither exists, dhcp4_server_configure fails fatally
with its address-selection error before making any call to the engine (the
trace is empty). -/
theorem C5_pool_address_selection (inp : ConfigureInput) (e : Engine) :
    (∀ s p : List Address,
       link_find_dhcp_server_address s p = spec_select_pool_address s p) ∧
    (link_find_dhcp_server_address inp.network.static_addresses inp.pool_addresses = none →
       dhcp4_server_configure inp e = ([], Except.error ConfErr.no_address)) := by
  constructor
  · intro s p
    rw [link_find_dhcp_server_address, spec_select_pool_address,
      find_static_ipv4_address_eq_find, find_pool_ipv4_address_eq_find]
  · intro h
    rw [dhcp4_server_configure, h]

/-- C5 witness: a link with no static and no pool addresses fails fatally
with an empty engine-call trace. -/
theorem C5_pool_address_selection_witness :
    dhcp4_server_configure { network := {} } { ret := fun _ => 0, running := true } =
      ([], Except.error ConfErr.no_address) :=
  (C5_pool_address_selection { network := {} } { ret := fun _ => 0, running := true }).2 rfl

/-- C2: the claim says processing "aa:bb:cc:dd:ee:ff 10.0.0.5" and then
"aa:bb:cc:dd:ee:ff 10.0.0.9" leaves one entry mapped to 10.0.0.9; the code
instead inserts each entry and immediately removes it again (the
replace-then-remove sequence at the end of config_parse_dhcp_static_leases),
so the table finishes empty. -/
theorem C2_static_lease_scenario_d_table_empty :
    config_parse_dhcp_static_leases (str "aa:bb:cc:dd:ee:ff 10.0.0.9")
      (config_parse_dhcp_static_leases (str "aa:bb:cc:dd:ee:ff 10.0.0.5") []) = [] := by
  decide

/-- C7: in the custom-option, vendor-option and static-lease push loops, a
duplicate (-EEXIST) failure from the engine is silently ignored and iteration
continues with the next entry, while any other negative return aborts
provisioning fatally at that entry (no further entries are processed). -/
theorem C7_option_push_duplicate_skipped_other_fatal (e : Engine) :
    (∀ (p : Nat) (rest : List Nat) (tr : List EngineCall),
       e.ret (EngineCall.addOption p) = -EEXIST →
       pushDhcpOptions e (p :: rest) tr =
         pushDhcpOptions e rest (tr ++ [EngineCall.addOption p])) ∧
    (∀ (p : Nat) (rest : List Nat) (tr : List EngineCall),
       e.ret (EngineCall.addOption p) < 0 → e.ret (EngineCall.addOption p) ≠ -EEXIST →
       pushDhcpOptions e (p :: rest) tr =
         (tr ++ [EngineCall.addOption p],
          Except.error (ConfErr.add_option (e.ret (EngineCall.addOption p))))) ∧
    (∀ (p : Nat) (rest : List Nat) (tr : List EngineCall),
       e.ret (EngineCall.addVendorOption p) = -EEXIST →
       pushDhcpVendorOptions e (p :: rest) tr =
         pushDhcpVendorOptions e rest (tr ++ [EngineCall.addVendorOption p])) ∧
    (∀ (p : Nat) (rest : List Nat) (tr : List EngineCall),
       e.ret (EngineCall.addVendorOption p) < 0 → e.ret (EngineCall.addVendorOption p) ≠ -EEXIST →
       pushDhcpVendorOptions e (p :: rest) tr =
         (tr ++ [EngineCall.addVendorOption p],
          Except.error (ConfErr.add_vendor_option (e.ret (EngineCall.addVendorOption p))))) ∧
    (∀ (s : List Nat × Nat) (rest : List (List Nat × Nat)) (tr : List EngineCall),
       e.ret (EngineCall.addStaticLease s.1 s.2) = -EEXIST →
       pushDhcpStaticLeases e (s :: rest) tr =
         pushDhcpStaticLeases e rest (tr ++ [EngineCall.addStaticLease s.1 s.2])) ∧
    (∀ (s : List Nat × Nat) (rest : List (List Nat × Nat)) (tr : List EngineCall),
       e.ret (EngineCall.addStaticLease s.1 s.2) < 0 →
       e.ret (EngineCall.addStaticLease s.1 s.2) ≠ -EEXIST →
       pushDhcpStaticLeases e (s :: rest) tr =
         (tr ++ [EngineCall.addStaticLease s.1 s.2],
          Except.error (ConfErr.add_static_lease (e.ret (EngineCall.addStaticLease s.1 s.2))))) := by
  refine ⟨?_, ?_, ?_, ?_, ?_, ?_⟩
  · intro p rest tr h
    simp [pushDhcpOptions, h]
  · intro p rest tr h1 h2
    simp [pushDhcpOptions, h1, h2]
  · intro p rest tr h
    simp [pushDhcpVendorOptions, h]
  · intro p rest tr h1 h2
    simp [pushDhcpVendorOptions, h1, h2]
  · intro s rest tr h
    simp [pushDhcpStaticLeases, h]
  · intro s rest tr h1 h2
    simp [pushDhcpStaticLeases, h1, h2]

/-- C7 witness: against an engine answering -EEXIST the option loop skips the
entry and finishes, and against an engine answering -5 (EIO) the static-lease
loop aborts fatally at the first entry. -/
theorem C7_option_push_witness :
    pushDhcpOptions { ret := fun _ => -17, running := true } [5] [] =
      pushDhcpOptions { ret := fun _ => -17, running := true } [] [EngineCall.addOption 5] ∧
    pushDhcpStaticLeases { ret := fun _ => -5, running := true } [([1, 2], 3)] [] =
      ([EngineCall.addStaticLease [1, 2] 3],
       Except.error (ConfErr.add_static_lease (-5))) := by
  constructor
  · exact (C7_option_push_duplicate_skipped_other_fatal
      { ret := fun _ => -17, running := true }).1 5 [] [] rfl
  · exact (C7_option_push_duplicate_skipped_other_fatal
      { ret := fun _ => -5, running := true }).2.2.2.2.2 ([1, 2], 3) [] [] (by decide) (by decide)

/-- C8: each lease time is pushed iff its configured microsecond value is
positive, the pushed value is the microsecond value divided by one million
rounded up (the last conjunct pins DIV_ROUND_UP to ceiling division: the
pushed seconds cover the configured time and overshoot by less than one
second), and a negative engine return is fatal. -/
theorem C8_lease_times (net : Network) (e : Engine) (tr : List EngineCall) :
    (net.dhcp_server_max_lease_time_usec = 0 →
       configureMaxLeaseTimeStage net e tr = (tr, Except.ok ())) ∧
    (0 < net.dhcp_server_max_lease_time_usec →
       (configureMaxLeaseTimeStage net e tr).1 =
         tr ++ [EngineCall.setMaxLeaseTime
           (DIV_ROUND_UP net.dhcp_server_max_lease_time_usec USEC_PER_SEC)]) ∧
    (0 < net.dhcp_server_max_lease_time_usec →
       e.ret (EngineCall.setMaxLeaseTime
         (DIV_ROUND_UP net.dhcp_server_max_lease_time_usec USEC_PER_SEC)) < 0 →
       (configureMaxLeaseTimeStage net e tr).2 =
         Except.error (ConfErr.max_lease_time
           (e.ret (EngineCall.setMaxLeaseTime
             (DIV_ROUND_UP net.dhcp_server_max_lease_time_usec USEC_PER_SEC))))) ∧
    (net.dhcp_server_default_lease_time_usec = 0 →
       configureDefaultLeaseTimeStage net e tr = (tr, Except.ok ())) ∧
    (0 < net.dhcp_server_default_lease_time_usec →
       (configureDefaultLeaseTimeStage net e tr).1 =
         tr ++ [EngineCall.setDefaultLeaseTime
           (DIV_ROUND_UP net.dhcp_server_default_lease_time_usec USEC_PER_SEC)]) ∧
    (0 < net.dhcp_server_default_lease_time_usec →
       e.ret (EngineCall.setDefaultLeaseTime
         (DIV_ROUND_UP net.dhcp_server_default_lease_time_usec USEC_PER_SEC)) < 0 →
       (configureDefaultLeaseTimeStage net e tr).2 =
         Except.error (ConfErr.default_lease_time
           (e.ret (EngineCall.setDefaultLeaseTime
             (DIV_ROUND_UP net.dhcp_server_default_lease_time_usec USEC_PER_SEC))))) ∧
    (∀ u : Nat, 0 < u →
       u ≤ DIV_ROUND_UP u USEC_PER_SEC * USEC_PER_SEC ∧
       DIV_ROUND_UP u USEC_PER_SEC * USEC_PER_SEC < u + USEC_PER_SEC) := by
  refine ⟨?_, ?_, ?_, ?_, ?_, ?_, ?_⟩
  · intro h
    simp [configureMaxLeaseTimeStage, h]
  · intro h
    simp [configureMaxLeaseTimeStage, h]
  · intro h h2
    simp [configureMaxLeaseTimeStage, h, h2]
  · intro h
    simp [configureDefaultLeaseTimeStage, h]
  · intro h
    simp [configureDefaultLeaseTimeStage, h]
  · intro h h2
    simp [configureDefaultLeaseTimeStage, h, h2]
  · intro u hu
    have h1 := Nat.div_add_mod (u + USEC_PER_SEC - 1) USEC_PER_SEC
    have h2 : (u + USEC_PER_SEC - 1) % USEC_PER_SEC < USEC_PER_SEC :=
      Nat.mod_lt _ (by decide)
    unfold DIV_ROUND_UP USEC_PER_SEC at h1 h2 ⊢
    omega

/-- C8 witness: 1.5 seconds of microseconds round up to 2 pushed seconds, and
a zero configuration pushes nothing. -/
theorem C8_lease_times_witness :
    (configureMaxLeaseTimeStage { dhcp_server_max_lease_time_usec := 1500000 }
      { ret := fun _ => 0, running := true } []).1 = [EngineCall.setMaxLeaseTime 2] ∧
    configureDefaultLeaseTimeStage {} { ret := fun _ => 0, running := true } [] =
      ([], Except.ok ()) := by
  constructor
  · exact (C8_lease_times { dhcp_server_max_lease_time_usec := 1500000 }
      { ret := fun _ => 0, running := true } []).2.1 (by decide)
  · exact (C8_lease_times {} { ret := fun _ => 0, running := true } []).2.2.2.1 rfl

theorem config_parse_dhcp_lease_server_list_words_append (ws : List Str)
    (pre acc : List Nat) :
    config_parse_dhcp_lease_server_list_words ws (pre ++ acc) =
      pre ++ config_parse_dhcp_lease_server_list_words ws acc := by
  induction ws generalizing acc with
  | nil => rfl
  | cons w rest ih =>
    simp only [config_parse_dhcp_lease_server_list_words]
    cases h : in_addr_from_string w with
    | none => exact ih acc
    | some a =>
      show config_parse_dhcp_lease_server_list_words rest (pre ++ acc ++ [a]) =
        pre ++ config_parse_dhcp_lease_server_list_words rest (acc ++ [a])
      rw [List.append_assoc]
      exact ih (acc ++ [a])

/-- C10: parsing a server-list value appends the successfully parsed IPv4
tokens to the category's existing list (so repeated assignments of the same
key accumulate), and an empty value leaves the list unchanged — in contrast
to the static-lease parser, where an empty value clears the whole table. -/
theorem C10_server_list_appends (rvalue : Str) (addresses : List Nat)
    (t : StaticLeaseTable) :
    (config_parse_dhcp_lease_server_list rvalue addresses =
       addresses ++ config_parse_dhcp_lease_server_list rvalue []) ∧
    (config_parse_dhcp_lease_server_list [] addresses = addresses) ∧
    (config_parse_dhcp_static_leases [] t = []) := by
  refine ⟨?_, rfl, rfl⟩
  rw [config_parse_dhcp_lease_server_list, config_parse_dhcp_lease_server_list,
    show addresses = addresses ++ [] by rw [List.append_nil],
    config_parse_dhcp_lease_server_list_words_append]
  simp

/-- C1 counterexample: the claim says that a non-empty explicit list is
pushed verbatim with no other source — the emit flag included — consulted;
but with EmitDNS=no and an explicit DNS list of [1.2.3.4] the category loop
consults the emit flag first and pushes nothing at all for DNS. -/
theorem C1_counterexample_emit_flag_gates_explicit_list :
    ({ network := { dhcp_server_emit_dns := false, dhcp_server_dns := [16909060] },
       pool_addresses := [{ family := Family.inet, in_addr := 167772161, prefixlen := 24 }] } :
         ConfigureInput).network.dhcp_server_dns ≠ [] ∧
    (dhcp4_server_configure
      { network := { dhcp_server_emit_dns := false, dhcp_server_dns := [16909060] },
        pool_addresses := [{ family := Family.inet, in_addr := 167772161, prefixlen := 24 }] }
      { ret := fun _ => 0, running := true }).1.filter (is_setServers_for LeaseInfo.dns) =
      [] := by
  decide

/-- C1 (amended): for every category whose condition holds (the emit flag for
DNS/NTP/SIP, unconditional for POP3/SMTP/LPR), a non-empty explicit per-link
address list is pushed to the engine exactly as configured, verbatim and
unfiltered, in a single engine call, and no other source (uplink
configuration, uplink lease, resolv-conf fallback) affects the result; when
the category's emit flag is false, nothing is pushed for it even if the
explicit list is non-empty. -/
theorem C1_explicit_list_pushed_verbatim_under_condition (inp : ConfigureInput)
    (n : LeaseInfo) (tr : List EngineCall)
    (hc : (inp.network.serviceConfig n).1 = true)
    (hne : (inp.network.serviceConfig n).2 ≠ []) :
    configureServiceList inp n tr =
      (tr ++ [EngineCall.setServers n (inp.network.serviceConfig n).2], Except.ok ()) := by
  have hlen : 0 < (inp.network.serviceConfig n).2.length := List.length_pos.mpr hne
  simp [configureServiceList, hc, hlen]

/-- C1 witness: with EmitNTP=yes and explicit NTP list [9.9.9.9] (151587081),
the NTP iteration makes exactly the one verbatim push, whatever uplink and
lease exist. -/
theorem C1_explicit_list_pushed_verbatim_witness :
    configureServiceList
      { network := { dhcp_server_emit_ntp := true, dhcp_server_ntp := [151587081] },
        uplink := some { network := some { ntp := [str "1.2.3.4"] },
                         dhcp_lease := some { ntp := [134744072] } } }
      LeaseInfo.ntp [] =
      ([EngineCall.setServers LeaseInfo.ntp [151587081]], Except.ok ()) :=
  C1_explicit_list_pushed_verbatim_under_condition
    { network := { dhcp_server_emit_ntp := true, dhcp_server_ntp := [151587081] },
      uplink := some { network := some { ntp := [str "1.2.3.4"] },
                       dhcp_lease := some { ntp := [134744072] } } }
    LeaseInfo.ntp [] rfl (by decide)

/-- C4 counterexample: the claim says that with the uplink's "use NTP" flag
false neither the static nor the lease contribution is included; but with
UseNTP=no, uplink NTP strings ["1.2.3.4"] and a lease exposing [8.8.8.8],
the code still pushes the static contribution [1.2.3.4] (only the lease
contribution is gated). -/
theorem C4_counterexample_static_not_gated :
    link_push_uplink_to_dhcp_server
      { network := some { ntp := [str "1.2.3.4"], dhcp_use_ntp := false },
        dhcp_lease := some { ntp := [134744072] } } LeaseInfo.ntp =
      some [16909060] := by
  decide

/-- C4 (amended): for the NTP and SIP categories, the contribution parsed
from the uplink's statically configured server strings is always included,
while only the contribution from the uplink's active DHCP lease is gated by
the uplink's corresponding "use NTP"/"use SIP" flag: with the flag false the
result is the filtered static contribution alone (whatever the lease holds),
and with the flag true and a lease present the lease's filtered addresses are
appended to it. -/
theorem C4_lease_contribution_gated_static_not (net : Network) (lease : Option Lease) :
    (net.dhcp_use_ntp = false →
       link_push_uplink_to_dhcp_server { network := some net, dhcp_lease := lease }
         LeaseInfo.ntp =
         mk_push_result (parse_uplink_server_strings net.ntp)) ∧
    (net.dhcp_use_sip = false →
       link_push_uplink_to_dhcp_server { network := some net, dhcp_lease := lease }
         LeaseInfo.sip =
         mk_push_result (parse_uplink_server_strings net.sip)) ∧
    (∀ l : Lease, lease = some l → net.dhcp_use_ntp = true →
       link_push_uplink_to_dhcp_server { network := some net, dhcp_lease := lease }
         LeaseInfo.ntp =
         mk_push_result (parse_uplink_server_strings net.ntp ++
           l.ntp.filter in4_addr_is_non_local)) ∧
    (∀ l : Lease, lease = some l → net.dhcp_use_sip = true →
       link_push_uplink_to_dhcp_server { network := some net, dhcp_lease := lease }
         LeaseInfo.sip =
         mk_push_result (parse_uplink_server_strings net.sip ++
           l.sip.filter in4_addr_is_non_local)) := by
  refine ⟨?_, ?_, ?_, ?_⟩
  · intro h
    simp [link_push_uplink_to_dhcp_server, uplink_servers_for, uplink_lease_condition, h]
  · intro h
    simp [link_push_uplink_to_dhcp_server, uplink_servers_for, uplink_lease_condition, h]
  · intro l hl h
    simp [link_push_uplink_to_dhcp_server, uplink_servers_for, uplink_lease_condition,
      sd_dhcp_lease_get_servers, hl, h]
  · intro l hl h
    simp [link_push_uplink_to_dhcp_server, uplink_servers_for, uplink_lease_condition,
      sd_dhcp_lease_get_servers, hl, h]

/-- C4 witness: with UseSIP=no the SIP push is the static contribution alone,
and with UseNTP=yes the lease's filtered NTP addresses are appended. -/
theorem C4_lease_contribution_gated_witness :
    link_push_uplink_to_dhcp_server
      { network := some { sip := [str "5.6.7.8"], dhcp_use_sip := false },
        dhcp_lease := some { sip := [134744072] } } LeaseInfo.sip =
      mk_push_result (parse_uplink_server_strings [str "5.6.7.8"]) ∧
    link_push_uplink_to_dhcp_server
      { network := some { ntp := [str "1.2.3.4"], dhcp_use_ntp := true },
        dhcp_lease := some { ntp := [134744072, 0] } } LeaseInfo.ntp =
      mk_push_result (parse_uplink_server_strings [str "1.2.3.4"] ++
        [134744072, 0].filter in4_addr_is_non_local) := by
  constructor
  · exact (C4_lease_contribution_gated_static_not
      { sip := [str "5.6.7.8"], dhcp_use_sip := false }
      (some { sip := [134744072] })).2.1 rfl
  · exact (C4_lease_contribution_gated_static_not
      { ntp := [str "1.2.3.4"], dhcp_use_ntp := true }
      (some { ntp := [134744072, 0] })).2.2.1 { ntp := [134744072, 0] } rfl rfl

/-- C6: the keeping cascade applied to every candidate of the uplink-config,
uplink-lease and resolv-conf sources accepts exactly the addresses that are
IPv4, not all-zeros and not loopback (first two conjuncts: the cascade and
the lease-side non-local filter agree with the spec's AddressFilter
predicate), and in particular an uplink lease exposing [8.8.8.8, 0.0.0.0]
contributes only [8.8.8.8]. -/
theorem C6_accept_characterization :
    (∀ u : InAddrUnion, (keep_ipv4_non_local u).isSome = address_filter_accept u) ∧
    (∀ a : Nat, in4_addr_is_non_local a =
       address_filter_accept { family := Family.inet, addr := a }) ∧
    (link_push_uplink_to_dhcp_server
      { network := some { dhcp_use_dns := true },
        dhcp_lease := some { dns := [134744072, 0] } } LeaseInfo.dns =
      some [134744072]) := by
  refine ⟨?_, ?_, by decide⟩
  · intro u
    obtain ⟨f, a⟩ := u
    cases f with
    | inet =>
      by_cases h0 : a = 0
      · simp [keep_ipv4_non_local, address_filter_accept, in4_addr_is_null,
          in4_addr_is_localhost, h0]
      · by_cases h1 : a / 16777216 = 127
        · simp [keep_ipv4_non_local, address_filter_accept, in4_addr_is_null,
            in4_addr_is_localhost, h0, h1]
        · simp [keep_ipv4_non_local, address_filter_accept, in4_addr_is_null,
            in4_addr_is_localhost, h0, h1]
    | inet6 =>
      simp [keep_ipv4_non_local, address_filter_accept]
  · intro a
    by_cases h0 : a = 0
    · simp [in4_addr_is_non_local, address_filter_accept, in4_addr_is_null,
        in4_addr_is_localhost, h0]
    · by_cases h1 : a / 16777216 = 127
      · simp [in4_addr_is_non_local, address_filter_accept, in4_addr_is_null,
          in4_addr_is_localhost, h0, h1]
      · simp [in4_addr_is_non_local, address_filter_accept, in4_addr_is_null,
          in4_addr_is_localhost, h0, h1]

/-- C9: the resolv-conf DNS fallback treats an absent file (ENOENT on open)
as success with nothing to push; any other open failure returns the negated
errno and a read failure returns its error code, and in both cases the
enclosing per-category iteration of dhcp4_server_configure swallows the
error and succeeds (the category push failure is recoverable, so the overall
provisioning pass continues). -/
theorem C9_resolv_conf_error_handling (inp : ConfigureInput) (u : Link)
    (tr : List EngineCall) (errno r : Int) (lines : List Str) :
    (dhcp4_server_set_dns_from_resolve_conf (ResolvConfFile.openFail ENOENT) =
       Except.ok none) ∧
    (errno ≠ ENOENT →
       dhcp4_server_set_dns_from_resolve_conf (ResolvConfFile.openFail errno) =
         Except.error (-errno)) ∧
    (dhcp4_server_set_dns_from_resolve_conf (ResolvConfFile.content lines (some r)) =
       Except.error r) ∧
    (inp.network.dhcp_server_emit_dns = true → inp.network.dhcp_server_dns = [] →
       inp.uplink = some u → u.network = none →
       dhcp4_server_set_dns_from_resolve_conf inp.resolv_conf = Except.error r →
       configureServiceList inp LeaseInfo.dns tr = (tr, Except.ok ())) := by
  refine ⟨rfl, ?_, rfl, ?_⟩
  · intro h
    simp [dhcp4_server_set_dns_from_resolve_conf, h]
  · intro h1 h2 h3 h4 h5
    simp [configureServiceList, Network.serviceConfig, h1, h2, h3, h4, h5]

/-- C9 witness: an open failure with errno EACCES (13) yields the error -13
from the reader, and the DNS iteration of the category loop still succeeds
without pushing anything. -/
theorem C9_resolv_conf_error_handling_witness :
    dhcp4_server_set_dns_from_resolve_conf (ResolvConfFile.openFail 13) =
      Except.error (-13) ∧
    configureServiceList
      { network := { dhcp_server_emit_dns := true },
        uplink := some {}, resolv_conf := ResolvConfFile.openFail 13 }
      LeaseInfo.dns [] = ([], Except.ok ()) := by
  constructor
  · exact (C9_resolv_conf_error_handling
      { network := { dhcp_server_emit_dns := true },
        uplink := some {}, resolv_conf := ResolvConfFile.openFail 13 }
      {} [] 13 (-13) []).2.1 (by decide)
  · exact (C9_resolv_conf_error_handling
      { network := { dhcp_server_emit_dns := true },
        uplink := some {}, resolv_conf := ResolvConfFile.openFail 13 }
      {} [] 13 (-13) []).2.2.2 rfl rfl rfl rfl (by decide)

/-- C3 counterexample: the claim says every address pushed to the engine
passes the AddressFilter predicate; but an explicit DNS list is pushed
verbatim without that filter, so an operator-entered "0.0.0.0" (which the
server-list parser accepts, first conjunct) is pushed to the engine (second
conjunct) even though the all-zeros address fails AddressFilter (third
conjunct). -/
theorem C3_counterexample_explicit_list_unfiltered :
    config_parse_dhcp_lease_server_list (str "0.0.0.0") [] = [0] ∧
    (dhcp4_server_configure
      { network := { dhcp_server_emit_dns := true, dhcp_server_dns := [0] },
        pool_addresses := [{ family := Family.inet, in_addr := 167772161, prefixlen := 24 }] }
      { ret := fun _ => 0, running := true }).1.contains
        (EngineCall.setServers LeaseInfo.dns [0]) = true ∧
    address_filter_accept { family := Family.inet, addr := 0 } = false := by
  decide

theorem mk_push_result_some {l m : List Nat} (h : mk_push_result l = some m) : m = l := by
  rw [mk_push_result] at h
  split_ifs at h
  exact (Option.some.inj h).symm

theorem keep_ipv4_non_local_accept {u : InAddrUnion} {a : Nat}
    (h : keep_ipv4_non_local u = some a) :
    address_filter_accept { family := Family.inet, addr := a } = true := by
  rw [keep_ipv4_non_local] at h
  split_ifs at h with h1 h2 h3
  have h4 := Option.some.inj h
  subst h4
  simp only [in4_addr_is_null, beq_iff_eq] at h2
  simp only [in4_addr_is_localhost, beq_iff_eq] at h3
  simp [address_filter_accept, h2, h3]

theorem in4_addr_is_non_local_accept {a : Nat} (h : in4_addr_is_non_local a = true) :
    address_filter_accept { family := Family.inet, addr := a } = true := by
  simp only [in4_addr_is_non_local, in4_addr_is_null, in4_addr_is_localhost,
    Bool.and_eq_true, Bool.not_eq_true', beq_eq_false_iff_ne] at h
  simp [address_filter_accept, h.1, h.2]

theorem mem_parse_uplink_server_strings_accept {servers : List Str} {a : Nat}
    (h : a ∈ parse_uplink_server_strings servers) :
    address_filter_accept { family := Family.inet, addr := a } = true := by
  rw [parse_uplink_server_strings, List.mem_filterMap] at h
  obtain ⟨s, _, hs⟩ := h
  cases hp : in_addr_from_string s with
  | none =>
    rw [hp] at hs
    cases hs
  | some ia =>
    rw [hp] at hs
    exact keep_ipv4_non_local_accept hs

theorem mem_gated_lease_filter_non_local {cond : Bool} {lease : Option Lease}
    {g : Lease → List Nat} {a : Nat}
    (h : a ∈ (if cond then
        match lease with
        | some l => (g l).filter in4_addr_is_non_local
        | none => []
      else [])) :
    in4_addr_is_non_local a = true := by
  by_cases hc : cond = true
  · rw [if_pos hc] at h
    cases lease with
    | none => cases h
    | some l => exact (List.mem_filter.mp h).2
  · rw [if_neg hc] at h
    cases h

theorem link_push_uplink_dns_accept {net : Network} {lease : Option Lease}
    {addresses : List Nat}
    (h : link_push_uplink_dns_to_dhcp_server net lease = some addresses) :
    ∀ a ∈ addresses, address_filter_accept { family := Family.inet, addr := a } = true := by
  simp only [link_push_uplink_dns_to_dhcp_server] at h
  have he := mk_push_result_some h
  subst he
  intro a ha
  rcases List.mem_append.mp ha with h1 | h2
  · rcases List.mem_filterMap.mp h1 with ⟨u, _, hu⟩
    exact keep_ipv4_non_local_accept hu
  · exact in4_addr_is_non_local_accept (mem_gated_lease_filter_non_local h2)

theorem parse_dns_server_string_accept {s : Str} {acc : List Nat}
    (hacc : ∀ a ∈ acc, address_filter_accept { family := Family.inet, addr := a } = true) :
    ∀ a ∈ dhcp4_server_parse_dns_server_string_and_warn s acc,
      address_filter_accept { family := Family.inet, addr := a } = true := by
  intro a ha
  rw [dhcp4_server_parse_dns_server_string_and_warn] at ha
  rcases List.mem_append.mp ha with h1 | h2
  · exact hacc a h1
  · rcases List.mem_filterMap.mp h2 with ⟨w, _, hw⟩
    cases hp : in_addr_ifindex_name_from_string_auto w with
    | none =>
      rw [hp] at hw
      cases hw
    | some u =>
      rw [hp] at hw
      exact keep_ipv4_non_local_accept hw

theorem resolv_conf_collect_accept (lines : List Str) (acc : List Nat)
    (hacc : ∀ a ∈ acc, address_filter_accept { family := Family.inet, addr := a } = true) :
    ∀ a ∈ resolv_conf_collect lines acc,
      address_filter_accept { family := Family.inet, addr := a } = true := by
  induction lines generalizing acc with
  | nil => exact hacc
  | cons line rest ih =>
    simp only [resolv_conf_collect]
    split_ifs with h1 h2
    · exact ih acc hacc
    · exact ih acc hacc
    · cases hf : first_word (strstrip line) (str "nameserver") with
      | none => exact ih acc hacc
      | some s =>
        exact ih (dhcp4_server_parse_dns_server_string_and_warn s acc)
          (parse_dns_server_string_accept hacc)

/-- C3 (amended): every address contributed by the uplink-configuration,
uplink-lease, and resolv-conf sources passes the AddressFilter predicate
(IPv4, non-null, non-loopback); the explicit per-link lists, in contrast, are
pushed verbatim without that filter (see the counterexample), so the
invariant holds for all engine pushes except those of explicit lists. -/
theorem C3_filtered_sources_pass_address_filter :
    (∀ (link : Link) (what : LeaseInfo) (addresses : List Nat),
       link_push_uplink_to_dhcp_server link what = some addresses →
       ∀ a ∈ addresses, address_filter_accept { family := Family.inet, addr := a } = true) ∧
    (∀ (f : ResolvConfFile) (addresses : List Nat),
       dhcp4_server_set_dns_from_resolve_conf f = Except.ok (some addresses) →
       ∀ a ∈ addresses,
         address_filter_accept { family := Family.inet, addr := a } = true) := by
  constructor
  · intro link what addresses h a ha
    obtain ⟨onet, olease⟩ := link
    cases onet with
    | none => cases h
    | some net =>
      by_cases hw : what = LeaseInfo.dns
      · rw [link_push_uplink_to_dhcp_server] at h
        simp only [if_pos hw] at h
        exact link_push_uplink_dns_accept h a ha
      · rw [link_push_uplink_to_dhcp_server] at h
        simp only [if_neg hw] at h
        have he := mk_push_result_some h
        subst he
        rcases List.mem_append.mp ha with h1 | h2
        · exact mem_parse_uplink_server_strings_accept h1
        · exact in4_addr_is_non_local_accept (mem_gated_lease_filter_non_local h2)
  · intro f addresses h a ha
    cases f with
    | openFail errno =>
      rw [dhcp4_server_set_dns_from_resolve_conf] at h
      split_ifs at h
      exact Option.noConfusion (Except.ok.inj h)
    | content lines re =>
      cases re with
      | some r => cases h
      | none =>
        injection h with h
        have he := mk_push_result_some h
        subst he
        exact resolv_conf_collect_accept lines [] (by intro a ha; cases ha) a ha

/-- C3 witness: the filtered-source invariant at a concrete uplink whose
lease exposes [8.8.8.8, 0.0.0.0]: the pushed NTP address 8.8.8.8 passes
AddressFilter. -/
theorem C3_filtered_sources_witness :
    address_filter_accept { family := Family.inet, addr := 134744072 } = true :=
  (C3_filtered_sources_pass_address_filter).1
    { network := some { dhcp_use_ntp := true }, dhcp_lease := some { ntp := [134744072, 0] } }
    LeaseInfo.ntp [134744072] (by decide) 134744072 (by decide)
